import Mathlib

/-
Shallow embedding of `train_gpt.py` (a small GPT-2-style decoder plus a
pretrained-weight importer) and proofs about it.

Tensors are modelled value-wise: a tensor of shape (B, T, C) is a function
`Fin B → Fin T → Fin C → ℚ`.  The real-analytic primitives the script takes
from its numeric library (exp used by softmax, sqrt used by the score scaling
and by layer normalisation, the GELU nonlinearity) are not definable over ℚ,
so they are passed as explicit function parameters bundled in `MathOps`;
every structural fact proved here holds for an arbitrary choice of these
functions.  Following IEEE semantics of `masked_fill` with negative infinity,
a masked score is represented as `none : Option ℚ` and softmax sends it to
weight exactly 0 (exp(-inf) = 0).  Stride/contiguity legality of `.view` is
not modelled; `.view` is interpreted as a reshape of the logical row-major
flattening of the tensor.
-/

namespace TrainGPT

/-- Shape-(B,T,C) tensor, value-wise. -/
abbrev F3 (B T C : ℕ) : Type := Fin B → Fin T → Fin C → ℚ

/-- Shape-(B,nh,T,hs) tensor, value-wise. -/
abbrev F4 (B nh T hs : ℕ) : Type := Fin B → Fin nh → Fin T → Fin hs → ℚ

/-- The real-analytic primitives delegated to the numeric library:
`exp` (softmax), `sqrtA` (score scaling and layer-norm denominators) and
`gelu` (the tanh-approximated GELU of the MLP). -/
structure MathOps where
  exp : ℚ → ℚ
  sqrtA : ℚ → ℚ
  gelu : ℚ → ℚ

/-- The `GPTConfig` dataclass, with its default field values. -/
structure GPTConfig where
  block_size : ℕ := 256
  vocab_size : ℕ := 65
  n_layer : ℕ := 6
  n_head : ℕ := 8
  n_embd : ℕ := 384
deriving DecidableEq

/-- `nn.Linear(i, o)` applied to a (B,T,i) tensor: `y = x Wᵀ + b`. -/
def linear3 {B T i o : ℕ} (W : Fin o → Fin i → ℚ) (bv : Fin o → ℚ)
    (x : F3 B T i) : F3 B T o :=
  fun b t j => bv j + ∑ c, W j c * x b t c

/-- Parameters of `CausalSelfAttention`: the combined qkv projection
`c_attn : Linear(n_embd, 3*n_embd)` and the output projection
`c_proj : Linear(n_embd, n_embd)`. -/
structure AttnParams (E : ℕ) where
  cattnW : Fin (3 * E) → Fin E → ℚ
  cattnB : Fin (3 * E) → ℚ
  cprojW : Fin E → Fin E → ℚ
  cprojB : Fin E → ℚ

/-- `qkv = self.c_attn(x)`. -/
def qkvProj {B T E : ℕ} (p : AttnParams E) (x : F3 B T E) : F3 B T (3 * E) :=
  linear3 p.cattnW p.cattnB x

/-- First third of `qkv.split(self.n_embd, dim=2)` (the `q` chunk). -/
def chunk0 {B T E : ℕ} (u : F3 B T (3 * E)) : F3 B T E :=
  fun b t c => u b t ⟨c.val, by have := c.isLt; omega⟩

/-- Second third of `qkv.split(self.n_embd, dim=2)` (the `k` chunk). -/
def chunk1 {B T E : ℕ} (u : F3 B T (3 * E)) : F3 B T E :=
  fun b t c => u b t ⟨E + c.val, by have := c.isLt; omega⟩

/-- Third third of `qkv.split(self.n_embd, dim=2)` (the `v` chunk). -/
def chunk2 {B T E : ℕ} (u : F3 B T (3 * E)) : F3 B T E :=
  fun b t c => u b t ⟨2 * E + c.val, by have := c.isLt; omega⟩

lemma merge_lt {nh hs : ℕ} {n h : ℕ} (hn : n < nh) (hh : h < hs) :
    n * hs + h < nh * hs := by
  calc n * hs + h < n * hs + hs := by omega
    _ = (n + 1) * hs := by ring
    _ ≤ nh * hs := Nat.mul_le_mul_right hs hn

/-- `.view(B, T, nh, hs).transpose(1, 2)` applied to a contiguous (B,T,E)
tensor, with `hs = E / nh` (the head split). -/
def toHeads (nh : ℕ) {B T E : ℕ} (u : F3 B T E) : F4 B nh T (E / nh) :=
  fun b n t h =>
    u b t ⟨n.val * (E / nh) + h.val,
      lt_of_lt_of_le (merge_lt n.isLt h.isLt)
        (le_of_eq_of_le (Nat.mul_comm nh (E / nh)) (Nat.div_mul_le_self E nh))⟩

lemma flat_lt {T nh hs : ℕ} (t : Fin T) (n : Fin nh) (h : Fin hs) :
    t.val * (nh * hs) + n.val * hs + h.val < nh * (T * hs) := by
  have h1 : n.val * hs + h.val < nh * hs := merge_lt n.isLt h.isLt
  calc t.val * (nh * hs) + n.val * hs + h.val
      < t.val * (nh * hs) + nh * hs := by omega
    _ = (t.val + 1) * (nh * hs) := by ring
    _ ≤ T * (nh * hs) := Nat.mul_le_mul_right (nh * hs) t.isLt
    _ = nh * (T * hs) := by ring

/-- `.view(B, T, nh, hs).transpose(1, 2)` applied to the already-reshaped
key tensor of shape (B, nh, T, hs) — the operation of the source's
`q = k.view(B,T,self.n_head,C//self.n_head).transpose(1,2)` (and likewise
`v`), as a reinterpretation of the row-major flattening of the logical
element order.  This value-level reading agrees with PyTorch exactly on the
domain where that `.view` is legal (see `viewLegal`): for `nh = 1` or
`T = 1` it is the identity, and for `T = nh` it is `transpose(1, 2)`, which
is what the no-copy view-then-transpose produces there.  Outside that
domain PyTorch raises RuntimeError instead of computing anything; the
fallible wrappers `attnAttE` / `attnForwardE` carry that error path, and
every theorem about runtime behaviour goes through them. -/
def reviewT (nh T hs : ℕ) {B : ℕ} (k : F4 B nh T hs) : F4 B nh T hs :=
  fun b n t h =>
    let f : ℕ := t.val * (nh * hs) + n.val * hs + h.val
    k b ⟨f / (T * hs), (Nat.div_lt_iff_lt_mul (Nat.mul_pos t.pos h.pos)).mpr
          (by have := flat_lt t n h; omega)⟩
      ⟨f / hs % T, Nat.mod_lt _ t.pos⟩
      ⟨f % hs, Nat.mod_lt _ h.pos⟩

/-- The registered buffer `bias = torch.tril(torch.ones(bs, bs))`
(lower-triangular mask of ones; batch/head broadcast dims dropped). -/
def trilMask (bs : ℕ) : Fin bs → Fin bs → ℚ :=
  fun i j => if j.val ≤ i.val then 1 else 0

/-- `att = (q @ k.transpose(-2,-1)) * scale` — scaled dot-product scores. -/
def attScoresD {B nh T hs : ℕ} (scale : ℚ) (q k : F4 B nh T hs) :
    Fin B → Fin nh → Fin T → Fin T → ℚ :=
  fun b n i j => (∑ h, q b n i h * k b n j h) * scale

/-- `att.masked_fill(self.bias[:,:,:T,:T] == 0, float('-inf'))`:
a masked score becomes `none` (negative infinity). -/
def maskFill (bs : ℕ) {B nh T : ℕ} (hT : T ≤ bs)
    (att : Fin B → Fin nh → Fin T → Fin T → ℚ) :
    Fin B → Fin nh → Fin T → Fin T → Option ℚ :=
  fun b n i j =>
    if trilMask bs (i.castLE hT) (j.castLE hT) = 0 then none else some (att b n i j)

/-- `F.softmax(att, dim=-1)` on rows that may contain negative infinity:
`exp(-inf) = 0`, so a masked entry contributes nothing to the normaliser and
receives probability exactly 0. -/
def softmaxMasked (exp : ℚ → ℚ) {B nh T : ℕ}
    (att : Fin B → Fin nh → Fin T → Fin T → Option ℚ) :
    Fin B → Fin nh → Fin T → Fin T → ℚ :=
  fun b n i j =>
    match att b n i j with
    | none => 0
    | some s => exp s / ∑ j', Option.elim (att b n i j') 0 exp

/-- The attention-probability tensor computed inside
`CausalSelfAttention.forward` when execution reaches lines 34-36, exactly as
the source builds it: the key tensor `k` is the head-reshaped SECOND chunk
of the qkv projection, and — reproducing the source's copy-paste — the query
is `k.view(...).transpose(1,2)` of that same `k`.  The scale is
`1.0 / math.sqrt(k.size(-1))`.  Line 31 may already have raised before these
lines run; `attnAttE` adds that error path. -/
def attnAtt (nh bs : ℕ) {B T E : ℕ} (p : AttnParams E) (ops : MathOps)
    (x : F3 B T E) (hT : T ≤ bs) :
    Fin B → Fin nh → Fin T → Fin T → ℚ :=
  let kh := toHeads nh (chunk1 (qkvProj p x))
  softmaxMasked ops.exp
    (maskFill bs hT
      (attScoresD (1 / ops.sqrtA ((E / nh : ℕ) : ℚ)) (reviewT nh T (E / nh) kh) kh))

lemma hs_pos {nh E : ℕ} (hdvd : nh ∣ E) (hE : 0 < E) : 0 < E / nh :=
  Nat.div_pos (Nat.le_of_dvd hE hdvd) (Nat.pos_of_dvd_of_pos hdvd hE)

/-- `y.transpose(1,2).contiguous().view(B, T, C)`: heads merged back into the
embedding axis (requires `nh ∣ E`, guaranteed by the constructor assert). -/
def backView (nh : ℕ) {B T E : ℕ} (hdvd : nh ∣ E)
    (y : F4 B nh T (E / nh)) : F3 B T E :=
  fun b t c =>
    y b ⟨c.val / (E / nh),
        (Nat.div_lt_iff_lt_mul (hs_pos hdvd c.pos)).mpr
          (by rw [Nat.mul_div_cancel' hdvd]; exact c.isLt)⟩
      t ⟨c.val % (E / nh), Nat.mod_lt _ (hs_pos hdvd c.pos)⟩

/-- The value `CausalSelfAttention.forward` produces when it runs to
completion, line by line.  The query and value tensors are both obtained
from the already-reshaped key tensor (`q = k.view(...)`, `v = k.view(...)`
in the source).  `attnForwardE` adds the RuntimeError path of line 31. -/
def attnForward (nh bs : ℕ) {B T E : ℕ} (p : AttnParams E) (ops : MathOps)
    (x : F3 B T E) (hT : T ≤ bs) (hdvd : nh ∣ E) : F3 B T E :=
  let kh := toHeads nh (chunk1 (qkvProj p x))
  let v := reviewT nh T (E / nh) kh
  let att := attnAtt nh bs p ops x hT
  let y := fun b n t h => ∑ t', att b n t t' * v b n t' h
  linear3 p.cprojW p.cprojB (backView nh hdvd y)

/-- PyTorch's `.view` compatibility condition for line 31's
`q = k.view(B, T, nh, hs)`.  There `k` is the qkv slice of shape (B, T, E)
and strides (T·3E, 3E, 1), viewed to (B, T, nh, hs) — legal, since only the
stride-1 axis is split, giving strides (T·3E, 3E, hs, 1) — and then
transposed to shape (B, nh, T, hs) with strides (T·3E, hs, 3E, 1).  For
nh, T, hs all > 1 no adjacent pair of axes can be merged (stride[i] ≠
stride[i+1]·size[i+1] in every case), so the requested (B, T, nh, hs)
reinterpretation is expressible without a copy exactly when the head axis is
trivial (`nh = 1`), the time axis is trivial (`T = 1`), or the two axes have
equal length (`T = nh`, where the view is size-preserving and returns the
same layout).  Outside this set `.view` raises
`RuntimeError: view size is not compatible with input tensor's size and
stride` — in particular for the program's own gpt2 configuration
(`n_head = 12`) at any sequence length other than 1 or 12. -/
def viewLegal (nh T : ℕ) : Prop := nh = 1 ∨ T = 1 ∨ T = nh

instance viewLegalDec (nh T : ℕ) : Decidable (viewLegal nh T) := by
  unfold viewLegal
  infer_instance

/-- `CausalSelfAttention.forward` up to the attention probabilities, with
the error path of line 31: unless the view is legal, the forward has already
raised RuntimeError before any score, mask or softmax is computed. -/
def attnAttE (nh bs : ℕ) {B T E : ℕ} (p : AttnParams E) (ops : MathOps)
    (x : F3 B T E) (hT : T ≤ bs) :
    Except String (Fin B → Fin nh → Fin T → Fin T → ℚ) :=
  if viewLegal nh T then .ok (attnAtt nh bs p ops x hT)
  else .error "RuntimeError"

/-- `CausalSelfAttention.forward` with the error path of line 31: the view
of the non-contiguous transposed key tensor raises RuntimeError unless
`viewLegal nh T`; when it is legal, the forward runs to completion and
returns the value-level result. -/
def attnForwardE (nh bs : ℕ) {B T E : ℕ} (p : AttnParams E) (ops : MathOps)
    (x : F3 B T E) (hT : T ≤ bs) (hdvd : nh ∣ E) : Except String (F3 B T E) :=
  if viewLegal nh T then .ok (attnForward nh bs p ops x hT hdvd)
  else .error "RuntimeError"

/-- The query tensor as the source computes it: `q = k.view(B,T,nh,hs)
.transpose(1,2)` where `k` is already the head-reshaped SECOND chunk. -/
def attnQCode (nh : ℕ) {B T E : ℕ} (p : AttnParams E) (x : F3 B T E) :
    F4 B nh T (E / nh) :=
  reviewT nh T (E / nh) (toHeads nh (chunk1 (qkvProj p x)))

/-- The value tensor as the source computes it: also derived from the
head-reshaped SECOND chunk (`v = k.view(...).transpose(1,2)`). -/
def attnVCode (nh : ℕ) {B T E : ℕ} (p : AttnParams E) (x : F3 B T E) :
    F4 B nh T (E / nh) :=
  reviewT nh T (E / nh) (toHeads nh (chunk1 (qkvProj p x)))

/-- The key tensor as the source computes it (head-reshaped second chunk). -/
def attnKCode (nh : ℕ) {B T E : ℕ} (p : AttnParams E) (x : F3 B T E) :
    F4 B nh T (E / nh) :=
  toHeads nh (chunk1 (qkvProj p x))

/-- Modelled from the spec: the intended query tensor, derived from the FIRST
third of the combined projection output (`q, k, v = qkv.split(n_embd, dim=2)`
followed by `q = q.view(B,T,nh,hs).transpose(1,2)`). -/
def attnQIntended (nh : ℕ) {B T E : ℕ} (p : AttnParams E) (x : F3 B T E) :
    F4 B nh T (E / nh) :=
  toHeads nh (chunk0 (qkvProj p x))

/-- Modelled from the spec: the intended value tensor, derived from the THIRD
third of the combined projection output. -/
def attnVIntended (nh : ℕ) {B T E : ℕ} (p : AttnParams E) (x : F3 B T E) :
    F4 B nh T (E / nh) :=
  toHeads nh (chunk2 (qkvProj p x))

/-- Parameters of one `nn.LayerNorm(n_embd)` (elementwise affine). -/
structure LNParams (E : ℕ) where
  w : Fin E → ℚ
  b : Fin E → ℚ

/-- `nn.LayerNorm` over the last axis: subtract the mean, divide by
`sqrt(var + eps)` with the library default `eps = 1e-5` (biased variance),
then apply the elementwise affine parameters. -/
def lnApply (sqrtA : ℚ → ℚ) {B T E : ℕ} (p : LNParams E) (x : F3 B T E) :
    F3 B T E :=
  fun b t c =>
    let mu := (∑ c', x b t c') / (E : ℚ)
    let vr := (∑ c', (x b t c' - mu) ^ 2) / (E : ℚ)
    (x b t c - mu) / sqrtA (vr + 1 / 100000) * p.w c + p.b c

/-- Parameters of `MLP`: `c_fc : Linear(n_embd, 4*n_embd)` and
`c_proj : Linear(4*n_embd, n_embd)`. -/
structure MLPParams (E : ℕ) where
  cfcW : Fin (4 * E) → Fin E → ℚ
  cfcB : Fin (4 * E) → ℚ
  cproj2W : Fin E → Fin (4 * E) → ℚ
  cproj2B : Fin E → ℚ

/-- `MLP.forward`: expand, GELU pointwise, project back. -/
def mlpForward (gelu : ℚ → ℚ) {B T E : ℕ} (p : MLPParams E) (x : F3 B T E) :
    F3 B T E :=
  linear3 p.cproj2W p.cproj2B (fun b t j => gelu (linear3 p.cfcW p.cfcB x b t j))

/-- Parameters of one `Block`: `ln_1`, `attn`, `ln_2`, `mlp`. -/
structure BlockParams (E : ℕ) where
  ln1 : LNParams E
  attn : AttnParams E
  ln2 : LNParams E
  mlp : MLPParams E

/-- `Block.forward`: pre-norm residual composition
`x = x + attn(ln_1(x)); x = x + mlp(ln_2(x))`. -/
def blockForward (ops : MathOps) (nh bs : ℕ) {B T E : ℕ} (p : BlockParams E)
    (x : F3 B T E) (hT : T ≤ bs) (hdvd : nh ∣ E) : F3 B T E :=
  let x1 := fun b t c =>
    x b t c + attnForward nh bs p.attn ops (lnApply ops.sqrtA p.ln1 x) hT hdvd b t c
  fun b t c => x1 b t c + mlpForward ops.gelu p.mlp (lnApply ops.sqrtA p.ln2 x1) b t c

/-- The ordered stack `self.transformer.h` applied left to right. -/
def applyBlocks (ops : MathOps) (nh bs : ℕ) {B T E : ℕ} (hT : T ≤ bs)
    (hdvd : nh ∣ E) (bl : List (BlockParams E)) (x : F3 B T E) : F3 B T E :=
  bl.foldl (fun a pb => blockForward ops nh bs pb a hT hdvd) x

/-- Parameters of the assembled `GPT` model.  There is no separate `lm_head`
weight field: after the tying assignment
`self.transformer.wte.weight = self.lm_head.weight` the token-embedding table
and the output projection are one object, so the record carries it once. -/
structure GPTParams (cfg : GPTConfig) where
  wte : Fin cfg.vocab_size → Fin cfg.n_embd → ℚ
  wpe : Fin cfg.block_size → Fin cfg.n_embd → ℚ
  blocks : List (BlockParams cfg.n_embd)
  lnf : LNParams cfg.n_embd

/-- The embedding stage of the model: token embedding plus position embedding
at positions `0 .. T-1` (batch dimension fixed to 1). -/
def gptEmbed (cfg : GPTConfig) (p : GPTParams cfg) {T : ℕ}
    (idx : Fin T → Fin cfg.vocab_size) (hT : T ≤ cfg.block_size) :
    F3 1 T cfg.n_embd :=
  fun _ t c => p.wte (idx t) c + p.wpe (t.castLE hT) c

/-- Modelled from the spec: the source's `GPT` class defines no `forward`
method (only `__init__` and `from_pretrained`), so the forward evaluation is
taken from the specification's Model Assembly contract and composed from the
source-embedded submodules: sum token and position embeddings, pass through
the ordered stack of Blocks, apply the final normalisation `ln_f`, and apply
the tied output projection (`lm_head` has no bias and its weight is the
token-embedding table). -/
def gptForward (ops : MathOps) (cfg : GPTConfig)
    (hdvd : cfg.n_head ∣ cfg.n_embd) (p : GPTParams cfg) {T : ℕ}
    (idx : Fin T → Fin cfg.vocab_size) (hT : T ≤ cfg.block_size) :
    Fin T → Fin cfg.vocab_size → ℚ :=
  let x0 := gptEmbed cfg p idx hT
  let xb := applyBlocks ops cfg.n_head cfg.block_size hT hdvd p.blocks x0
  let xf := lnApply ops.sqrtA p.lnf xb
  fun t v => ∑ c, p.wte v c * xf 0 t c

/-- A tensor with its (B,T,C) shape carried as data, for shape statements. -/
structure Tensor3 where
  B : ℕ
  T : ℕ
  C : ℕ
  val : Fin B → Fin T → Fin C → ℚ

/-- `CausalSelfAttention.forward` on a shape-carrying tensor whose feature
dimension equals the module's `n_embd`, with the RuntimeError path of
line 31: either the returned tensor or the raised error. -/
def attnForwardTE (nh bs E : ℕ) (p : AttnParams E) (ops : MathOps)
    (x : Tensor3) (hC : x.C = E) (hT : x.T ≤ bs) (hdvd : nh ∣ E) :
    Except String Tensor3 :=
  (attnForwardE nh bs p ops (fun b' t' c' => x.val b' t' (Fin.cast hC.symm c'))
      hT hdvd).map
    (fun y => ⟨x.B, x.T, x.C, fun b t c => y b t (Fin.cast hC c)⟩)

/-- The preset whitelist of `GPT.from_pretrained`'s opening assert. -/
def allowedPresets : List String :=
  ["gpt2", "gpt2-medium", "gpt2-large", "gpt2-xl"]

/-- The `config_args` preset table, with the keys exactly as the source
spells them (note: `gpt-medium`, `gpt-large`, `gpt-xl` — without the `2`). -/
def configArgsTable : List (String × (ℕ × ℕ × ℕ)) :=
  [("gpt2", (12, 12, 768)),
   ("gpt-medium", (24, 16, 1024)),
   ("gpt-large", (36, 20, 1280)),
   ("gpt-xl", (48, 25, 1600))]

/-- Association-list lookup (Python dict subscript). -/
def alistLookup {α : Type} (k : String) : List (String × α) → Option α
  | [] => none
  | (k', v) :: r => if k' = k then some v else alistLookup k r

/-- The configuration-building head of `GPT.from_pretrained`, up to (but not
including) the checkpoint fetch: assert the preset name, subscript the
`config_args` dict (a missing key is Python's `KeyError`), add
`vocab_size = 50257` and `block_size = 1024`, and build the `GPTConfig`. -/
def fromPretrainedConfig (model_type : String) : Except String GPTConfig :=
  if model_type ∈ allowedPresets then
    match alistLookup model_type configArgsTable with
    | some (l, h, e) =>
        .ok { block_size := 1024, vocab_size := 50257,
              n_layer := l, n_head := h, n_embd := e }
    | none => .error "KeyError"
  else .error "AssertionError"

/-- Shape of a tensor allocated during module construction. -/
inductive Alloc where
  | linearA (o i : ℕ)
  | embeddingA (n d : ℕ)
  | layerNormA (d : ℕ)
  | bufferA (n : ℕ)
deriving DecidableEq

/-- Allocation trace of `CausalSelfAttention.__init__`: the assert
`config.n_embd % config.n_head == 0` runs before anything is allocated
(`n_head = 0` is Python's `ZeroDivisionError` from `%`); on success it
allocates `c_attn`, `c_proj` and the tril mask buffer. -/
def attnInitTrace (cfg : GPTConfig) : List Alloc × Option String :=
  if cfg.n_head = 0 then ([], some "ZeroDivisionError")
  else if cfg.n_embd % cfg.n_head ≠ 0 then ([], some "AssertionError")
  else ([.linearA (3 * cfg.n_embd) cfg.n_embd,
         .linearA cfg.n_embd cfg.n_embd,
         .bufferA cfg.block_size], none)

/-- Allocation trace of `MLP.__init__` (never fails). -/
def mlpInitTrace (cfg : GPTConfig) : List Alloc :=
  [.linearA (4 * cfg.n_embd) cfg.n_embd, .linearA cfg.n_embd (4 * cfg.n_embd)]

/-- Allocation trace of `Block.__init__`: `ln_1`, then the attention (which
may fail), then `ln_2` and the MLP. -/
def blockInitTrace (cfg : GPTConfig) : List Alloc × Option String :=
  let a := attnInitTrace cfg
  match a.2 with
  | some e => (.layerNormA cfg.n_embd :: a.1, some e)
  | none => (.layerNormA cfg.n_embd :: a.1
      ++ .layerNormA cfg.n_embd :: mlpInitTrace cfg, none)

/-- Allocation trace of `[Block(config) for _ in range(n)]`. -/
def blocksTrace (cfg : GPTConfig) : ℕ → List Alloc × Option String
  | 0 => ([], none)
  | n + 1 =>
    let b := blockInitTrace cfg
    match b.2 with
    | some e => (b.1, some e)
    | none =>
      let r := blocksTrace cfg n
      (b.1 ++ r.1, r.2)

/-- Allocation trace of `GPT.__init__`: `wte` and `wpe` embedding tables
first, then the blocks, then `ln_f` and `lm_head` (the tying assignment
allocates nothing). -/
def gptInitTrace (cfg : GPTConfig) : List Alloc × Option String :=
  let b := blocksTrace cfg cfg.n_layer
  match b.2 with
  | some e =>
    (.embeddingA cfg.vocab_size cfg.n_embd
      :: .embeddingA cfg.block_size cfg.n_embd :: b.1, some e)
  | none =>
    (.embeddingA cfg.vocab_size cfg.n_embd
      :: .embeddingA cfg.block_size cfg.n_embd :: b.1
      ++ [.layerNormA cfg.n_embd, .linearA cfg.vocab_size cfg.n_embd], none)

/-- A checkpoint tensor: its shape list plus its value at each multi-index
(junk outside the shape). -/
structure PTensor where
  shape : List ℕ
  val : List ℕ → ℚ

/-- `.t()` — transpose (shape reversed, indices reversed; the source applies
it only to the four 2-D Conv1D weights). -/
def PTensor.t (x : PTensor) : PTensor :=
  ⟨x.shape.reverse, fun ix => x.val ix.reverse⟩

/-- A state dict: ordered mapping from parameter name to tensor. -/
abbrev StateDict : Type := List (String × PTensor)

/-- Dict lookup `sd[k]`. -/
def sdLookup (k : String) : StateDict → Option PTensor
  | [] => none
  | (k', t) :: r => if k' = k then some t else sdLookup k r

/-- Replace the tensor bound to `k` (an in-place `copy_` updates the object,
which in this value-level dict model is re-binding the entry for `k`). -/
def sdUpdate (sd : StateDict) (k : String) (t : PTensor) : StateDict :=
  sd.map fun kv => if kv.1 = k then (k, t) else kv

/-- Python's `str.endswith`, on the character lists of the strings. -/
def strEndsWith (s suf : String) : Bool :=
  suf.data.isSuffixOf s.data

def attnBiasSuffix : String := ".attn.bias"

def maskedBiasSuffix : String := ".attn.masked_bias"

/-- The four suffixes of matrices the checkpoint stores transposed. -/
def transposedSuffixes : List String :=
  ["attn.c_attn.weight", "attn.c_proj.weight", "mlp.c_fc.weight", "mlp.c_proj.weight"]

def isTransposed (k : String) : Bool :=
  transposedSuffixes.any fun w => strEndsWith k w

/-- `sd_keys = [k for k in sd.keys() if not k.endswith('.attn.bias')]`. -/
def filteredModelKeys (sd : StateDict) : List String :=
  (sd.map Prod.fst).filter fun k => !strEndsWith k attnBiasSuffix

/-- The checkpoint's keys after dropping `.attn.masked_bias` and
`.attn.bias` entries, kept together with their tensors (the source iterates
over the filtered key list and subscripts `sd_hf`). -/
def filteredHfEntries (sdhf : StateDict) : StateDict :=
  (sdhf.filter fun kv => !strEndsWith kv.1 maskedBiasSuffix).filter
    fun kv => !strEndsWith kv.1 attnBiasSuffix

inductive ImportErr where
  | mismatch (chf cm : ℕ)
  | keyError (k : String)
  | shapeAssert (k : String)
deriving DecidableEq

/-- One iteration of the copy loop for checkpoint entry `(k, thf)`:
subscript the model dict (`KeyError` if absent), then either the transposed
branch (`assert sd_hf[k].shape[::-1] == sd[k].shape` then
`sd[k].copy_(sd_hf[k].t())`) or the vanilla branch
(`assert sd_hf[k].shape == sd[k].shape` then `sd[k].copy_(sd_hf[k])`).
`copy_` writes the source values into the destination object, whose shape
is unchanged. -/
def copyParam (sd : StateDict) (k : String) (thf : PTensor) :
    StateDict × Option ImportErr :=
  match sdLookup k sd with
  | none => (sd, some (.keyError k))
  | some tdst =>
    if isTransposed k then
      if thf.shape.reverse = tdst.shape then
        (sdUpdate sd k ⟨tdst.shape, thf.t.val⟩, none)
      else (sd, some (.shapeAssert k))
    else
      if thf.shape = tdst.shape then
        (sdUpdate sd k ⟨tdst.shape, thf.val⟩, none)
      else (sd, some (.shapeAssert k))

/-- The copy loop over the checkpoint's filtered entries, stopping at the
first failure. -/
def importLoop : StateDict → List (String × PTensor) → StateDict × Option ImportErr
  | sd, [] => (sd, none)
  | sd, (k, t) :: rest =>
    match copyParam sd k t with
    | (sd', none) => importLoop sd' rest
    | (sd', some e) => (sd', some e)

/-- The reconciliation part of `GPT.from_pretrained`: filter both name sets,
assert equal cardinality (`mismatched keys` reporting both counts) before
entering the loop, then copy each entry. -/
def loadStateDict (sd sdhf : StateDict) : StateDict × Option ImportErr :=
  let keys := filteredModelKeys sd
  let ents := filteredHfEntries sdhf
  if ents.length = keys.length then importLoop sd ents
  else (sd, some (.mismatch ents.length keys.length))

def wteName : String := "transformer.wte.weight"

def lmHeadName : String := "lm_head.weight"

/-- The learned-parameter names of one `Block`, in registration order. -/
def blockParamNames (i : ℕ) : List String :=
  let p := "transformer.h." ++ toString i ++ "."
  [p ++ "ln_1.weight", p ++ "ln_1.bias",
   p ++ "attn.c_attn.weight", p ++ "attn.c_attn.bias",
   p ++ "attn.c_proj.weight", p ++ "attn.c_proj.bias",
   p ++ "ln_2.weight", p ++ "ln_2.bias",
   p ++ "mlp.c_fc.weight", p ++ "mlp.c_fc.bias",
   p ++ "mlp.c_proj.weight", p ++ "mlp.c_proj.bias"]

/-- All parameter names of `GPT`, in registration order. -/
def gptParamNames (cfg : GPTConfig) : List String :=
  wteName :: "transformer.wpe.weight"
    :: (((List.range cfg.n_layer).map blockParamNames).flatten
      ++ ["transformer.ln_f.weight", "transformer.ln_f.bias", lmHeadName])

/-- Object-identity model of the constructed module tree: each parameter
name resolves to an object id, and the heap maps ids to tensor values. -/
structure HeapModel where
  nameRef : String → ℕ
  heap : ℕ → PTensor

/-- `GPT.__init__` in the object model: every parameter is allocated as a
fresh object (its id is its position in registration order, values supplied
by `initV`), and then the tying assignment
`self.transformer.wte.weight = self.lm_head.weight` re-binds the `wte`
weight name to the `lm_head` weight object. -/
def gptHeapInit (cfg : GPTConfig) (initV : ℕ → PTensor) : HeapModel :=
  let names := gptParamNames cfg
  let base : String → ℕ := fun n => names.indexOf n
  { nameRef := fun n => if n = wteName then base lmHeadName else base n,
    heap := initV }

/-- Read a parameter through its name. -/
def readParam (hm : HeapModel) (n : String) : PTensor :=
  hm.heap (hm.nameRef n)

/-- Overwrite the object at id `r` (a storage mutation, not a re-binding). -/
def writeRef (hm : HeapModel) (r : ℕ) (t : PTensor) : HeapModel :=
  { hm with heap := Function.update hm.heap r t }

/-- `sd[k].copy_(t)` in the object model: write through the id `k` resolves
to; the name→object binding itself is untouched. -/
def copyInPlace (hm : HeapModel) (k : String) (t : PTensor) : HeapModel :=
  writeRef hm (hm.nameRef k) ⟨(readParam hm k).shape, t.val⟩

/-- The import loop's effect on the object model: a sequence of in-place
copies. -/
def heapImport : HeapModel → List (String × PTensor) → HeapModel
  | hm, [] => hm
  | hm, (k, t) :: r => heapImport (copyInPlace hm k t) r

/-! ## Theorems -/

/-- A 1×1×1 input evaluating to 1, for the qkv dataflow check. -/
def xC1 : F3 1 1 1 := fun _ _ _ => 1

/-- Concrete single-head attention parameters whose `c_attn` maps `xC1` to
the qkv vector (1, 2, 3): the three chunks are pairwise distinct. -/
def pC1 : AttnParams 1 :=
  ⟨fun j _ => (j.val : ℚ) + 1, fun _ => 0, fun _ _ => 1, fun _ => 0⟩

/-- Claim C1 (code_bug): the claim says query, key and value are each derived
from their own third of the `c_attn` output; the source instead derives all
three from the key chunk (`q = k.view(...)`, `v = k.view(...)` after `k` was
reassigned).  On a concrete input whose three chunks are 1, 2, 3, the code's
query, key and value all evaluate to 2 (the key chunk), while the intended
query and value are 1 and 3. -/
theorem attention_qkv_copy_bug :
    attnQCode 1 pC1 xC1 0 0 0 0 = 2 ∧
    attnKCode 1 pC1 xC1 0 0 0 0 = 2 ∧
    attnVCode 1 pC1 xC1 0 0 0 0 = 2 ∧
    attnQIntended 1 pC1 xC1 0 0 0 0 = 1 ∧
    attnVIntended 1 pC1 xC1 0 0 0 0 = 3 ∧
    attnQCode 1 pC1 xC1 0 0 0 0 ≠ attnQIntended 1 pC1 xC1 0 0 0 0 := by
  refine ⟨?_, ?_, ?_, ?_, ?_, ?_⟩ <;>
    norm_num [attnQCode, attnKCode, attnVCode, attnQIntended, attnVIntended,
      reviewT, toHeads, chunk0, chunk1, chunk2, qkvProj, linear3, pC1, xC1]

lemma attnAtt_causal (nh bs : ℕ) {B T E : ℕ} (p : AttnParams E)
    (ops : MathOps) (x : F3 B T E) (hT : T ≤ bs) (b : Fin B) (n : Fin nh)
    (i j : Fin T) (hij : i.val < j.val) :
    attnAtt nh bs p ops x hT b n i j = 0 := by
  have hji : ¬ j.val ≤ i.val := by omega
  simp [attnAtt, softmaxMasked, maskFill, trilMask, Fin.coe_castLE, hji]

/-- All-zero single-head attention parameters. -/
def pW4 : AttnParams 1 := ⟨fun _ _ => 0, fun _ => 0, fun _ _ => 0, fun _ => 0⟩

/-- All-zero 1×2×1 input. -/
def xW4 : F3 1 2 1 := fun _ _ _ => 0

/-- The identity functions standing in for exp, sqrt and GELU. -/
def opsId : MathOps := ⟨id, id, id⟩

/-- All-zero two-head attention parameters (n_embd = 2). -/
def pC4 : AttnParams 2 := ⟨fun _ _ => 0, fun _ => 0, fun _ _ => 0, fun _ => 0⟩

/-- All-zero 1×3×2 input: two heads and T = 3 > 1 with T ≠ n_head, the
region where line 31's view is illegal. -/
def xC4 : F3 1 3 2 := fun _ _ _ => 0

/-- Claim C4 (corrected), counterexample: at a concrete multi-head input
(n_head = 2, T = 3 ≤ block_size = 4), the forward pass raises RuntimeError
at `q = k.view(...)` — a view of the non-contiguous transposed key tensor —
before any score is masked or any softmax runs, so no attention probability
exists there at all; the claim as stated asserts a zero probability for
every T ≤ block_size input. -/
theorem attention_causality_counterexample :
    attnAttE 2 4 pC4 opsId xC4 (by decide) = .error "RuntimeError" ∧
    attnForwardE 2 4 pC4 opsId xC4 (by decide) ⟨1, rfl⟩ = .error "RuntimeError" := by
  constructor
  · simp only [attnAttE]
    rw [if_neg (by decide)]
  · simp only [attnForwardE]
    rw [if_neg (by decide)]

/-- Claim C4 (corrected), amended: for every input of shape (B, T, n_embd)
with `T ≤ block_size` on which the forward pass reaches the mask and softmax
at all — that is, whenever line 31's view is legal (`n_head = 1`, or
`T = 1`, or `T = n_head`) — the attention probability assigned from query
position `i` to key position `j` with `i < j` (after the `-inf` masked fill
and the softmax along the key axis) is exactly zero, for every choice of the
numeric primitives; on every other input the forward raises RuntimeError
before computing any probability. -/
theorem attention_causality_legal (nh bs : ℕ) {B T E : ℕ} (p : AttnParams E)
    (ops : MathOps) (x : F3 B T E) (hT : T ≤ bs) (hView : viewLegal nh T)
    (b : Fin B) (n : Fin nh) (i j : Fin T) (hij : i.val < j.val) :
    attnAttE nh bs p ops x hT = .ok (attnAtt nh bs p ops x hT) ∧
    attnAtt nh bs p ops x hT b n i j = 0 := by
  constructor
  · simp only [attnAttE]
    rw [if_pos hView]
  · exact attnAtt_causal nh bs p ops x hT b n i j hij

/-- Witness for `attention_causality_legal` at a concrete input. -/
theorem attention_causality_legal_witness :
    attnAttE 1 2 pW4 opsId xW4 (le_refl 2) = .ok (attnAtt 1 2 pW4 opsId xW4 (le_refl 2)) ∧
    attnAtt 1 2 pW4 opsId xW4 (le_refl 2) 0 0 0 1 = 0 :=
  attention_causality_legal 1 2 pW4 opsId xW4 (le_refl 2) (Or.inl rfl) 0 0 0 1
    (by decide)

/-- The all-zero 1×3×2 input as a shape-carrying tensor. -/
def xT9 : Tensor3 := ⟨1, 3, 2, fun _ _ _ => 0⟩

/-- Claim C9 (corrected), counterexample: at a concrete input of shape
(1, 3, 2) with T = 3 ≤ block_size = 4 and n_head = 2, the forward pass
returns no tensor at all — it raises RuntimeError at `q = k.view(...)` —
so its output shape is not the input shape; the claim as stated asserts a
same-shaped output for every T ≤ block_size input (the program's own gpt2
configuration, n_head = 12, crashes likewise at any prompt length other
than 1 or 12). -/
theorem attention_output_shape_counterexample :
    attnForwardTE 2 4 2 pC4 opsId xT9 rfl (by decide) ⟨1, rfl⟩
      = .error "RuntimeError" := by
  simp only [attnForwardTE, attnForwardE]
  rw [if_neg (by decide)]
  rfl

/-- Claim C9 (corrected), amended: for every input of shape (B, T, n_embd)
with `T ≤ block_size`, `CausalSelfAttention.forward` returns an output of
exactly the input's shape whenever line 31's view of the non-contiguous
transposed key tensor is legal (`n_head = 1`, or `T = 1`, or `T = n_head`);
on every other such input it raises RuntimeError and returns nothing. -/
theorem attention_output_shape_legal (nh bs E : ℕ) (p : AttnParams E)
    (ops : MathOps) (x : Tensor3) (hC : x.C = E) (hT : x.T ≤ bs)
    (hdvd : nh ∣ E) :
    (viewLegal nh x.T →
      ∃ y, attnForwardTE nh bs E p ops x hC hT hdvd = .ok y ∧
        y.B = x.B ∧ y.T = x.T ∧ y.C = x.C) ∧
    (¬ viewLegal nh x.T →
      attnForwardTE nh bs E p ops x hC hT hdvd = .error "RuntimeError") := by
  constructor
  · intro hV
    refine ⟨⟨x.B, x.T, x.C, fun b t c =>
      attnForward nh bs p ops (fun b' t' c' => x.val b' t' (Fin.cast hC.symm c'))
        hT hdvd b t (Fin.cast hC c)⟩, ?_, rfl, rfl, rfl⟩
    simp only [attnForwardTE, attnForwardE]
    rw [if_pos hV]
    rfl
  · intro hV
    simp only [attnForwardTE, attnForwardE]
    rw [if_neg hV]
    rfl

/-- Witness for `attention_output_shape_legal` at a concrete input. -/
theorem attention_output_shape_legal_witness :
    ∃ y, attnForwardTE 1 2 1 pW4 opsId ⟨1, 2, 1, xW4⟩ rfl (le_refl 2) ⟨1, rfl⟩
        = .ok y ∧ y.B = 1 ∧ y.T = 2 ∧ y.C = 1 :=
  (attention_output_shape_legal 1 2 1 pW4 opsId ⟨1, 2, 1, xW4⟩ rfl (le_refl 2)
    ⟨1, rfl⟩).1 (Or.inl rfl)

/-- Claim C2 (confirmed, spec-modelled): for every sequence of token indices
(each below `vocab_size`, length `T ≤ block_size`) the forward evaluation
returns logits indexed by `Fin T → Fin vocab_size` (shape
(sequence_length, vocab_size)) and equal, pointwise, to: token embedding
plus position embedding at positions `0..T-1`, passed through the ordered
stack of Blocks, the final normalisation, and the tied output projection
(whose weight is the token-embedding table, with no bias). -/
theorem gpt_forward_pipeline (ops : MathOps) (cfg : GPTConfig)
    (hdvd : cfg.n_head ∣ cfg.n_embd) (p : GPTParams cfg) {T : ℕ}
    (idx : Fin T → Fin cfg.vocab_size) (hT : T ≤ cfg.block_size) :
    gptForward ops cfg hdvd p idx hT = fun t v =>
      ∑ c, p.wte v c *
        lnApply ops.sqrtA p.lnf
          (applyBlocks ops cfg.n_head cfg.block_size hT hdvd p.blocks
            (fun (_ : Fin 1) t' c' => p.wte (idx t') c' + p.wpe (t'.castLE hT) c'))
          0 t c :=
  rfl

/-- A tiny configuration: block_size 2, vocab_size 2, no layers, one head,
embedding width 1. -/
def cfgW2 : GPTConfig := ⟨2, 2, 0, 1, 1⟩

/-- Zero parameters for `cfgW2`. -/
def pW2 : GPTParams cfgW2 :=
  ⟨fun _ _ => 0, fun _ _ => 0, [], ⟨fun _ => 1, fun _ => 0⟩⟩

/-- A constant token-index sequence of length 1 for `cfgW2`. -/
def idxW2 : Fin 1 → Fin cfgW2.vocab_size := fun _ => ⟨0, by decide⟩

/-- Witness for `gpt_forward_pipeline` at a concrete input. -/
theorem gpt_forward_pipeline_witness :
    gptForward opsId cfgW2 ⟨1, rfl⟩ pW2 idxW2 (by decide) = fun t v =>
      ∑ c, pW2.wte v c *
        lnApply opsId.sqrtA pW2.lnf
          (applyBlocks opsId cfgW2.n_head cfgW2.block_size (by decide) ⟨1, rfl⟩
            pW2.blocks
            (fun (_ : Fin 1) t' c' => pW2.wte (idxW2 t') c'
              + pW2.wpe (t'.castLE (by decide)) c'))
          0 t c :=
  gpt_forward_pipeline opsId cfgW2 ⟨1, rfl⟩ pW2 idxW2 (by decide)

/-- Claim C3 (code_bug): the opening assert of `GPT.from_pretrained` admits
the four preset names with the `gpt2` spelling, but the `config_args` table
spells three of its keys `gpt-medium`, `gpt-large`, `gpt-xl`; so only
`'gpt2'` reaches config construction — the other three allowed presets
raise `KeyError` at the table subscript, before the checkpoint fetch. -/
theorem from_pretrained_preset_table :
    fromPretrainedConfig ("gpt2")
        = .ok { block_size := 1024, vocab_size := 50257,
                n_layer := 12, n_head := 12, n_embd := 768 } ∧
    ("gpt2-medium") ∈ allowedPresets ∧
    fromPretrainedConfig ("gpt2-medium") = .error "KeyError" ∧
    ("gpt2-large") ∈ allowedPresets ∧
    fromPretrainedConfig ("gpt2-large") = .error "KeyError" ∧
    ("gpt2-xl") ∈ allowedPresets ∧
    fromPretrainedConfig ("gpt2-xl") = .error "KeyError" :=
  ⟨rfl, by decide, rfl, by decide, rfl, by decide, rfl⟩

/-- Claim C6 (corrected), counterexample: with `n_embd = 5`, `n_head = 2`
(not divisible) but `n_layer = 0`, GPT construction raises nothing at all;
and with `n_layer = 1` the assert does fire, but only after the token and
position embedding tables (and the first block's `ln_1`) have been
allocated. -/
theorem gpt_construction_counterexample :
    (5 : ℕ) % 2 ≠ 0 ∧
    (gptInitTrace ⟨256, 65, 0, 2, 5⟩).2 = none ∧
    gptInitTrace ⟨256, 65, 1, 2, 5⟩ =
      ([.embeddingA 65 5, .embeddingA 256 5, .layerNormA 5],
        some "AssertionError") := by
  refine ⟨by decide, by decide, by decide⟩

/-- Claim C6 (corrected), amended: for every configuration with at least one
layer and a positive head count whose embedding dimension is not divisible
by the head count, GPT construction raises an `AssertionError` — after the
two embedding tables and the first block's `ln_1` have been allocated, but
before any attention tensor is allocated; and whenever the dimension is
divisible (head count positive), construction does not raise. -/
theorem gpt_construction_divisibility (cfg : GPTConfig) (hh : 0 < cfg.n_head) :
    (1 ≤ cfg.n_layer → cfg.n_embd % cfg.n_head ≠ 0 →
      gptInitTrace cfg =
        ([.embeddingA cfg.vocab_size cfg.n_embd,
          .embeddingA cfg.block_size cfg.n_embd,
          .layerNormA cfg.n_embd], some "AssertionError")) ∧
    (cfg.n_embd % cfg.n_head = 0 → (gptInitTrace cfg).2 = none) := by
  have h0 : ¬ cfg.n_head = 0 := hh.ne'
  constructor
  · intro h1 h2
    obtain ⟨m, hm⟩ : ∃ m, cfg.n_layer = m + 1 := ⟨cfg.n_layer - 1, by omega⟩
    simp [gptInitTrace, hm, blocksTrace, blockInitTrace, attnInitTrace, h0, h2]
  · intro h2
    have hall : ∀ n, (blocksTrace cfg n).2 = none := by
      intro n
      induction n with
      | zero => simp [blocksTrace]
      | succ m ih =>
        simp [blocksTrace, blockInitTrace, attnInitTrace, h0, h2, ih]
    have h3 := hall cfg.n_layer
    simp [gptInitTrace, h3]

/-- Witness for `gpt_construction_divisibility` at concrete configurations. -/
theorem gpt_construction_divisibility_witness :
    gptInitTrace ⟨256, 65, 1, 2, 5⟩ =
      ([.embeddingA 65 5, .embeddingA 256 5, .layerNormA 5],
        some "AssertionError") ∧
    (gptInitTrace ⟨256, 65, 3, 2, 4⟩).2 = none :=
  ⟨(gpt_construction_divisibility ⟨256, 65, 1, 2, 5⟩ (by decide)).1
      (by decide) (by decide),
   (gpt_construction_divisibility ⟨256, 65, 3, 2, 4⟩ (by decide)).2 (by decide)⟩

lemma gptHeapInit_tied (cfg : GPTConfig) (initV : ℕ → PTensor) :
    (gptHeapInit cfg initV).nameRef wteName
      = (gptHeapInit cfg initV).nameRef lmHeadName := by
  simp [gptHeapInit]

/-- Claim C5 (confirmed): after construction, the token-embedding weight and
the output-projection weight resolve to the same object, and a storage
mutation through either name is observable through the other. -/
theorem weight_tying (cfg : GPTConfig) (initV : ℕ → PTensor) (t : PTensor) :
    (gptHeapInit cfg initV).nameRef wteName
      = (gptHeapInit cfg initV).nameRef lmHeadName ∧
    readParam (writeRef (gptHeapInit cfg initV)
      ((gptHeapInit cfg initV).nameRef wteName) t) lmHeadName = t ∧
    readParam (writeRef (gptHeapInit cfg initV)
      ((gptHeapInit cfg initV).nameRef lmHeadName) t) wteName = t := by
  have h := gptHeapInit_tied cfg initV
  refine ⟨h, ?_, ?_⟩
  · simp [readParam, writeRef, ← h, Function.update_same]
  · simp [readParam, writeRef, h, Function.update_same]

lemma heapImport_nameRef (l : List (String × PTensor)) (hm : HeapModel) :
    (heapImport hm l).nameRef = hm.nameRef := by
  induction l generalizing hm with
  | nil => rfl
  | cons hd r ih => exact (ih (copyInPlace hm hd.1 hd.2)).trans rfl

/-- Claim C10 (confirmed): the weight importer performs only in-place
storage writes (`copy_`), never a re-binding of a parameter name; hence
after any sequence of imported copies the token-embedding weight and the
output-projection weight still resolve to the same single object. -/
theorem tying_preserved_by_import (cfg : GPTConfig) (initV : ℕ → PTensor)
    (l : List (String × PTensor)) :
    (heapImport (gptHeapInit cfg initV) l).nameRef
      = (gptHeapInit cfg initV).nameRef ∧
    (heapImport (gptHeapInit cfg initV) l).nameRef wteName
      = (heapImport (gptHeapInit cfg initV) l).nameRef lmHeadName := by
  have h := heapImport_nameRef l (gptHeapInit cfg initV)
  exact ⟨h, by rw [h]; exact gptHeapInit_tied cfg initV⟩

/-- Claim C7 (confirmed): if the filtered checkpoint name set and the
filtered model name set differ in cardinality, the importer stops with a
mismatch error reporting the two counts, before any copy: the model state
dict is returned unchanged. -/
theorem load_mismatch_aborts (sd sdhf : StateDict)
    (h : (filteredHfEntries sdhf).length ≠ (filteredModelKeys sd).length) :
    loadStateDict sd sdhf =
      (sd, some (.mismatch (filteredHfEntries sdhf).length
        (filteredModelKeys sd).length)) := by
  simp [loadStateDict, h]

/-- A 1-D tensor of sevens. -/
def tW7 : PTensor := ⟨[2], fun _ => 7⟩

/-- Witness for `load_mismatch_aborts`: a model with one (non-mask)
parameter against an empty checkpoint. -/
theorem load_mismatch_aborts_witness :
    loadStateDict [(("transformer.wpe.weight"), tW7)] [] =
      ([(("transformer.wpe.weight"), tW7)], some (.mismatch 0 1)) :=
  load_mismatch_aborts [(("transformer.wpe.weight"), tW7)] [] (by decide)

lemma sdUpdate_cons (a : String) (b : PTensor) (r : StateDict)
    (k : String) (t : PTensor) :
    sdUpdate ((a, b) :: r) k t
      = (if a = k then (k, t) else (a, b)) :: sdUpdate r k t :=
  rfl

lemma sdLookup_update_self {sd : StateDict} {k : String} {u : PTensor}
    (h : sdLookup k sd = some u) (t : PTensor) :
    sdLookup k (sdUpdate sd k t) = some t := by
  induction sd with
  | nil => simp [sdLookup] at h
  | cons hd r ih =>
    obtain ⟨a, b⟩ := hd
    rw [sdUpdate_cons]
    by_cases hk : a = k
    · rw [if_pos hk, sdLookup, if_pos rfl]
    · rw [if_neg hk, sdLookup, if_neg hk]
      rw [sdLookup, if_neg hk] at h
      exact ih h

lemma sdLookup_update_other {sd : StateDict} {k k' : String} (t : PTensor)
    (h : k' ≠ k) : sdLookup k' (sdUpdate sd k t) = sdLookup k' sd := by
  induction sd with
  | nil => rfl
  | cons hd r ih =>
    obtain ⟨a, b⟩ := hd
    rw [sdUpdate_cons]
    by_cases hk : a = k
    · have hak : ¬ a = k' := by rw [hk]; exact Ne.symm h
      rw [if_pos hk, sdLookup, if_neg (Ne.symm h), sdLookup, if_neg hak]
      exact ih
    · rw [if_neg hk, sdLookup, sdLookup, ih]

lemma copyParam_ok {sd sd' : StateDict} {k : String} {thf : PTensor}
    (h : copyParam sd k thf = (sd', none)) :
    ∃ tdst, sdLookup k sd = some tdst ∧
      sd' = sdUpdate sd k ⟨tdst.shape,
        if isTransposed k then thf.t.val else thf.val⟩ ∧
      (isTransposed k = true → thf.shape.reverse = tdst.shape) ∧
      (isTransposed k = false → thf.shape = tdst.shape) := by
  unfold copyParam at h
  cases hl : sdLookup k sd with
  | none =>
    simp only [hl] at h
    exact absurd (congrArg Prod.snd h) (by simp)
  | some tdst =>
    refine ⟨tdst, rfl, ?_⟩
    cases ht : isTransposed k with
    | true =>
      simp only [hl, ht, eq_self_iff_true, if_true] at h
      by_cases hs : thf.shape.reverse = tdst.shape
      · rw [if_pos hs] at h
        injection h with h1 h2
        refine ⟨?_, fun _ => hs, fun hc => Bool.noConfusion hc⟩
        rw [← h1]
        simp
      · rw [if_neg hs] at h
        exact absurd (congrArg Prod.snd h) (by simp)
    | false =>
      simp only [hl, ht, Bool.false_eq_true, if_false] at h
      by_cases hs : thf.shape = tdst.shape
      · rw [if_pos hs] at h
        injection h with h1 h2
        refine ⟨?_, fun hc => Bool.noConfusion hc, fun _ => hs⟩
        rw [← h1]
        simp
      · rw [if_neg hs] at h
        exact absurd (congrArg Prod.snd h) (by simp)

lemma copyParam_lookup_other (sd : StateDict) (k0 : String) (t0 : PTensor)
    {k : String} (h : k ≠ k0) :
    sdLookup k (copyParam sd k0 t0).1 = sdLookup k sd := by
  unfold copyParam
  cases hl : sdLookup k0 sd with
  | none => simp only [hl]
  | some tdst =>
    cases ht : isTransposed k0 with
    | true =>
      simp only [hl, ht, eq_self_iff_true, if_true]
      by_cases hs : t0.shape.reverse = tdst.shape
      · rw [if_pos hs]; exact sdLookup_update_other _ h
      · rw [if_neg hs]
    | false =>
      simp only [hl, ht, Bool.false_eq_true, if_false]
      by_cases hs : t0.shape = tdst.shape
      · rw [if_pos hs]; exact sdLookup_update_other _ h
      · rw [if_neg hs]

lemma importLoop_lookup_notin {k : String} :
    ∀ (l : List (String × PTensor)) (sd : StateDict), k ∉ l.map Prod.fst →
      sdLookup k (importLoop sd l).1 = sdLookup k sd := by
  intro l
  induction l with
  | nil => intro sd _; rfl
  | cons hd r ih =>
    obtain ⟨k0, t0⟩ := hd
    intro sd h
    simp only [List.map_cons, List.mem_cons, not_or] at h
    obtain ⟨hne, hr⟩ := h
    cases hcp : copyParam sd k0 t0 with
    | mk sd1 e =>
      have h1 : sdLookup k sd1 = sdLookup k sd := by
        have h2 := copyParam_lookup_other sd k0 t0 hne
        rwa [hcp] at h2
      cases e with
      | none =>
        rw [show importLoop sd ((k0, t0) :: r) = importLoop sd1 r by
          simp only [importLoop, hcp]]
        rw [ih sd1 hr, h1]
      | some err =>
        rw [show importLoop sd ((k0, t0) :: r) = (sd1, some err) by
          simp only [importLoop, hcp]]
        exact h1

lemma importLoop_ok_spec :
    ∀ (l : List (String × PTensor)) (sd : StateDict),
      (l.map Prod.fst).Nodup → (importLoop sd l).2 = none →
      ∀ k thf, (k, thf) ∈ l →
        ∃ tdst, sdLookup k sd = some tdst ∧
          sdLookup k (importLoop sd l).1 =
            some ⟨tdst.shape, if isTransposed k then thf.t.val else thf.val⟩ ∧
          (isTransposed k = true → thf.shape.reverse = tdst.shape) ∧
          (isTransposed k = false → thf.shape = tdst.shape) := by
  intro l
  induction l with
  | nil => intro sd _ _ k thf hmem; simp at hmem
  | cons hd rest ih =>
    obtain ⟨k0, t0⟩ := hd
    intro sd hnd hok k thf hmem
    simp only [List.map_cons, List.nodup_cons] at hnd
    obtain ⟨hnd0, hndr⟩ := hnd
    cases hcp : copyParam sd k0 t0 with
    | mk sd1 e =>
      cases e with
      | some err =>
        exfalso
        rw [show importLoop sd ((k0, t0) :: rest) = (sd1, some err) by
          simp only [importLoop, hcp]] at hok
        exact Option.noConfusion hok
      | none =>
        have hloop : importLoop sd ((k0, t0) :: rest) = importLoop sd1 rest := by
          simp only [importLoop, hcp]
        obtain ⟨tdst0, hl0, hsd1, hsh1, hsh2⟩ := copyParam_ok hcp
        rw [hloop] at hok
        rcases List.mem_cons.mp hmem with heq | hrest
        · injection heq with hk hthf
          subst hk
          subst hthf
          refine ⟨tdst0, hl0, ?_, hsh1, hsh2⟩
          rw [hloop, importLoop_lookup_notin rest sd1 hnd0, hsd1]
          exact sdLookup_update_self hl0 _
        · have hkr : k ∈ rest.map Prod.fst :=
            List.mem_map.mpr ⟨(k, thf), hrest, rfl⟩
          have hne : k ≠ k0 := fun hc => hnd0 (hc ▸ hkr)
          obtain ⟨tdst, hl, hfin, hp1, hp2⟩ := ih sd1 hndr hok k thf hrest
          refine ⟨tdst, ?_, ?_, hp1, hp2⟩
          · rwa [hsd1, sdLookup_update_other _ hne] at hl
          · rwa [hloop]

/-- Claim C8 (confirmed): when the import loop completes (no assertion
fired), every checkpoint entry whose name ends in one of the four designated
transposed suffixes had a source shape that is the exact reverse of the
destination shape and was copied transposed — the destination value at index
[i, j] equals the source value at [j, i] — while every other entry had the
exact destination shape and was copied element-for-element; in both cases
the destination object keeps its own shape (no silent reshape), so a shape
disagreement on any entry makes the success case `hok` impossible: the loop
stops with an assertion failure instead. -/
theorem import_copy_correct (sd sdhf : StateDict)
    (hnd : ((filteredHfEntries sdhf).map Prod.fst).Nodup)
    (hok : (loadStateDict sd sdhf).2 = none) :
    ∀ k thf, (k, thf) ∈ filteredHfEntries sdhf →
      ∃ tdst tnew, sdLookup k sd = some tdst ∧
        sdLookup k (loadStateDict sd sdhf).1 = some tnew ∧
        tnew.shape = tdst.shape ∧
        (isTransposed k = true → thf.shape.reverse = tdst.shape ∧
          ∀ i j : ℕ, tnew.val [i, j] = thf.val [j, i]) ∧
        (isTransposed k = false → thf.shape = tdst.shape ∧
          ∀ ix : List ℕ, tnew.val ix = thf.val ix) := by
  by_cases hlen :
      (filteredHfEntries sdhf).length = (filteredModelKeys sd).length
  · have hload : loadStateDict sd sdhf
        = importLoop sd (filteredHfEntries sdhf) := by
      simp only [loadStateDict]
      rw [if_pos hlen]
    rw [hload] at hok ⊢
    intro k thf hmem
    obtain ⟨tdst, hl, hfin, hs1, hs2⟩ :=
      importLoop_ok_spec (filteredHfEntries sdhf) sd hnd hok k thf hmem
    refine ⟨tdst, _, hl, hfin, rfl, ?_, ?_⟩
    · intro ht
      refine ⟨hs1 ht, fun i j => ?_⟩
      simp [ht, PTensor.t]
    · intro ht
      refine ⟨hs2 ht, fun ix => ?_⟩
      simp [ht]
  · exfalso
    rw [show loadStateDict sd sdhf = (sd, some (.mismatch
        (filteredHfEntries sdhf).length (filteredModelKeys sd).length)) by
      simp only [loadStateDict]; rw [if_neg hlen]] at hok
    exact Option.noConfusion hok


/-- A transposed-suffix parameter name. -/
def kT8 : String := "h.attn.c_attn.weight"

/-- A plain parameter name. -/
def kP8 : String := "transformer.wpe.weight"

/-- Checkpoint tensor for `kT8`, shape [3, 2]. -/
def thfT8 : PTensor := ⟨[3, 2], fun _ => 5⟩

/-- Checkpoint tensor for `kP8`, shape [2]. -/
def thfP8 : PTensor := ⟨[2], fun _ => 7⟩

/-- A two-parameter model state dict. -/
def sdW8 : StateDict := [(kT8, ⟨[2, 3], fun _ => 0⟩), (kP8, ⟨[2], fun _ => 0⟩)]

/-- The matching two-entry checkpoint (first entry stored transposed). -/
def hfW8 : StateDict := [(kT8, thfT8), (kP8, thfP8)]

/-- Witness for `import_copy_correct` on a concrete two-entry import. -/
theorem import_copy_correct_witness :
    ∃ tdst tnew, sdLookup kT8 sdW8 = some tdst ∧
      sdLookup kT8 (loadStateDict sdW8 hfW8).1 = some tnew ∧
      tnew.shape = tdst.shape ∧
      (isTransposed kT8 = true → thfT8.shape.reverse = tdst.shape ∧
        ∀ i j : ℕ, tnew.val [i, j] = thfT8.val [j, i]) ∧
      (isTransposed kT8 = false → thfT8.shape = tdst.shape ∧
        ∀ ix : List ℕ, tnew.val ix = thfT8.val ix) :=
  import_copy_correct sdW8 hfW8 (by decide) (by decide) kT8 thfT8
    (List.Mem.head _)

end TrainGPT
